import Mathlib

set_option maxHeartbeats 1000000

/-! Shallow embedding of the inventory reconciliation backend
    (`backend/app.py`, `backend/services/lotecart_processor.py`,
    `backend/services/file_processor.py`).  Quantities handled as Python
    floats in the source are modelled as rationals; the fixed decimal
    tolerances of the source (`0.01`, `1e-9`) are carried over verbatim.
    Record lines (`original_s_line_raw`) are modelled as their list of
    semicolon-separated fields. -/

/-- One stock lot line of a reconciliation group entering
    `InventoryProcessor.distribute_discrepancies`: lot identifier,
    optional lot date (`Date_Lot`, an encoded comparable key, `none` for
    `NaT`) and the theoretical quantity `QUANTITE_ORIGINALE`. -/
structure LotLine where
  numeroLot : String
  dateLot : Option Nat
  quantiteOriginale : ℚ
deriving DecidableEq

/-- Allocation loop of `InventoryProcessor.distribute_discrepancies`
    (`app.py` lines 254-292): walk the policy-ordered lot quantities with
    the running `ecart_restant`; produce per line the pair
    `(AJUSTEMENT, QUANTITE_CORRIGEE)` and finally the leftover
    `ecart_restant`.  The guard `q ≤ |r|` is the source's
    `abs(ecart_restant) >= quantite_originale_lot`. -/
def distributeAux : List ℚ → ℚ → Nat → (List (ℚ × ℚ)) × ℚ
  | [], r, _ => ([], r)
  | q :: rest, r, idx =>
    if r = 0 then
      let t := distributeAux rest r (idx + 1)
      ((0, q) :: t.1, t.2)
    else if 0 < r then
      if idx = 0 then
        let t := distributeAux rest 0 (idx + 1)
        ((r, q + r) :: t.1, t.2)
      else
        let t := distributeAux rest r (idx + 1)
        ((0, q) :: t.1, t.2)
    else
      if q ≤ |r| then
        let t := distributeAux rest (r + q) (idx + 1)
        ((-q, 0) :: t.1, t.2)
      else
        let t := distributeAux rest 0 (idx + 1)
        ((r, q + r) :: t.1, t.2)

/-- Rows `(AJUSTEMENT, QUANTITE_CORRIGEE)` produced for one group whose
    policy-ordered original quantities are `origs` and whose counted
    quantity (`QUANTITE_REELLE_SAISIE_TOTALE`) is `counted`; the delta is
    `ecart_total = quantite_reelle_saisie - quantite_originale_totale`. -/
def distributeRows (origs : List ℚ) (counted : ℚ) : List (ℚ × ℚ) :=
  (distributeAux origs (counted - origs.sum) 0).1

/-- Leftover `ecart_restant` after the allocation loop of one group. -/
def distributeResidual (origs : List ℚ) (counted : ℚ) : ℚ :=
  (distributeAux origs (counted - origs.sum) 0).2

/-- Residual check of `app.py` line 297:
    `abs(ecart_restant) > 0.01` triggers the distribution warning. -/
def residualWarning (origs : List ℚ) (counted : ℚ) : Bool :=
  decide ((1 : ℚ) / 100 < |distributeResidual origs counted|)

/-- Code-point lexicographic string comparison, the order pandas uses on
    the `NUMERO_LOT` tie-break key. -/
def charsLE : List Char → List Char → Bool
  | [], _ => true
  | _ :: _, [] => false
  | a :: as, b :: bs => if a = b then charsLE as bs else decide (a < b)

/-- String comparison on the lot identifiers. -/
def strLE (a b : String) : Bool :=
  charsLE a.toList b.toList

/-- FIFO key order of `app.py` line 246:
    `sort_values(['Date_Lot', 'NUMERO_LOT'], na_position='last')`. -/
def fifoLE (a b : LotLine) : Bool :=
  match a.dateLot, b.dateLot with
  | some d1, some d2 =>
    if d1 = d2 then strLE a.numeroLot b.numeroLot else decide (d1 < d2)
  | some _, none => true
  | none, some _ => false
  | none, none => strLE a.numeroLot b.numeroLot

/-- LIFO key order of `app.py` line 249: both keys descending,
    `na_position='first'`. -/
def lifoLE (a b : LotLine) : Bool :=
  match a.dateLot, b.dateLot with
  | none, _ => true
  | some _, none => false
  | some d1, some d2 =>
    if d1 = d2 then strLE b.numeroLot a.numeroLot else decide (d2 < d1)

/-- Ordered insertion used by the sort model. -/
def insertLE {α : Type} (le : α → α → Bool) (x : α) : List α → List α
  | [] => [x]
  | y :: ys => if le x y then x :: y :: ys else y :: insertLE le x ys

/-- Stable sort modelling `DataFrame.sort_values` for the given key
    order. -/
def sortByLE {α : Type} (le : α → α → Bool) : List α → List α
  | [] => []
  | x :: xs => insertLE le x (sortByLE le xs)

/-- Strategy dispatch of `app.py` lines 243-252: FIFO and LIFO sort the
    group's lots, any other strategy keeps the original order. -/
def sortStrategy (strategy : String) (lines : List LotLine) : List LotLine :=
  if strategy = "FIFO" then sortByLE fifoLE lines
  else if strategy = "LIFO" then sortByLE lifoLE lines
  else lines

/-- One group of `distribute_discrepancies`: sort the lots by the chosen
    strategy, then run the allocation loop, pairing each sorted lot with
    its `(AJUSTEMENT, QUANTITE_CORRIGEE)` result. -/
def distributeGroup (strategy : String) (lines : List LotLine) (counted : ℚ) :
    (List (LotLine × ℚ × ℚ)) × ℚ :=
  let sorted := sortStrategy strategy lines
  let t := distributeAux (sorted.map (fun l => l.quantiteOriginale))
    (counted - (lines.map (fun l => l.quantiteOriginale)).sum) 0
  ((sorted.zip t.1).map (fun p => (p.1, p.2.1, p.2.2)), t.2)

/-- Zero tolerance `self._zero_epsilon = 1e-9` of `app.py` line 69. -/
def zeroEpsilon : ℚ := 1 / 1000000000

/-- Python `str.strip()`: drop whitespace at both ends. -/
def trimChars (cs : List Char) : List Char :=
  ((cs.dropWhile Char.isWhitespace).reverse.dropWhile Char.isWhitespace).reverse

/-- Python `str.strip()` on a `String`. -/
def strTrim (s : String) : String :=
  String.mk (trimChars s.toList)

/-- Python `str.lower()` on a `String` (ASCII content). -/
def strLower (s : String) : String :=
  String.mk (s.toList.map Char.toLower)

/-- Value of a list of decimal digit characters, most significant first. -/
def digitsToNat (cs : List Char) : ℕ :=
  cs.foldl (fun a c => a * 10 + (c.toNat - '0'.toNat)) 0

/-- Python `int(str)` on the line-rank field: surrounding whitespace
    allowed, optional sign, at least one digit, nothing else. -/
def parseIntStr (s : String) : Option ℤ :=
  match trimChars s.toList with
  | [] => none
  | '-' :: ds =>
    if ds ≠ [] ∧ ds.all Char.isDigit then some (-(digitsToNat ds : ℤ)) else none
  | '+' :: ds =>
    if ds ≠ [] ∧ ds.all Char.isDigit then some (digitsToNat ds : ℤ) else none
  | ds => if ds.all Char.isDigit then some (digitsToNat ds : ℤ) else none

/-- Pad a digit string on the left with zeros to six places. -/
def pad6 (ds : List Char) : List Char :=
  List.replicate (6 - ds.length) '0' ++ ds

/-- Python `f"{f:.6f}"` (`self._decimal_precision = 6`): fixed-point
    rendering at six decimals.  The binary double is modelled by the
    rational `q`; the decimal rounding of the format is modelled by
    `round (q * 10^6)`. -/
def fmt6 (q : ℚ) : List Char :=
  let n : ℤ := round (q * 1000000)
  let m : ℕ := n.natAbs
  let base := Nat.toDigits 10 (m / 1000000) ++ '.' :: pad6 (Nat.toDigits 10 (m % 1000000))
  if n < 0 then '-' :: base else base

/-- Python `str.rstrip(c)`: drop every trailing occurrence of `c`. -/
def rstripChar (c : Char) (cs : List Char) : List Char :=
  (cs.reverse.dropWhile (fun x => x = c)).reverse

/-- Numeric path of `InventoryProcessor._format_number` (`app.py` lines
    71-97) and of the identical `LotecartProcessor._format_number`:
    render at six decimals, strip trailing zeros then the trailing
    point, coerce an empty result to `"0"`. -/
def format_number_rat (q : ℚ) : List Char :=
  let fmt := fmt6 q
  let fmt := if fmt.contains '.' then rstripChar '.' (rstripChar '0' fmt) else fmt
  if fmt = [] then ['0'] else fmt

/-- Model of Python `float(s)` restricted to plain decimal literals
    (optional sign, digits, optional single point; no exponent, no
    `inf`/`nan`), the shapes the business files carry. -/
def parse_float_chars (cs : List Char) : Option ℚ :=
  let t := trimChars cs
  let body := if t.head? = some '-' ∨ t.head? = some '+' then t.tail else t
  let ip := body.takeWhile Char.isDigit
  let rest := body.dropWhile Char.isDigit
  let mag : Option ℚ :=
    if rest = [] then (if ip = [] then none else some ((digitsToNat ip : ℚ)))
    else if rest.head? = some '.' ∧ rest.tail.all Char.isDigit ∧
        (ip ≠ [] ∨ rest.tail ≠ []) then
      some ((digitsToNat ip : ℚ) + (digitsToNat rest.tail : ℚ) / 10 ^ rest.tail.length)
    else none
  if t.head? = some '-' then mag.map Neg.neg else mag

/-- Normalisation the string path of `_format_number` applies before
    re-parsing: strip, then every comma becomes a point. -/
def normalizeNumericInput (cs : List Char) : List Char :=
  (trimChars cs).map (fun c => if c = ',' then '.' else c)

/-- String path of `InventoryProcessor._format_number`: strip, commas to
    points, re-parse; on success reformat the parsed value, on failure
    return the normalised text. -/
def format_number_str (cs : List Char) : List Char :=
  let s := normalizeNumericInput cs
  match parse_float_chars s with
  | some f => format_number_rat f
  | none => s

/-- `InventoryProcessor._to_csv_number` (`app.py` lines 99-106) on a
    numeric value with the default comma separator: format, then swap the
    decimal point for a comma. -/
def to_csv_number (q : ℚ) : List Char :=
  (format_number_rat q).map (fun c => if c = '.' then ',' else c)

/-- One completed-template row as it stands after the numeric cleaning of
    `LotecartProcessor.detect_lotecart_candidates` (comma and space
    normalisation plus `errors="coerce"` / `fillna(0)`), which is the
    parsing modelled by `parse_float_chars`. -/
structure TemplateRow where
  codeArticle : String
  numeroInventaire : String
  quantiteTheorique : ℚ
  quantiteReelle : ℚ
deriving DecidableEq

/-- LOTECART candidate mask of `lotecart_processor.py` lines 76-82:
    keep the rows with theoretical quantity exactly 0 and counted
    quantity strictly positive. -/
def detect_lotecart_candidates (rows : List TemplateRow) : List TemplateRow :=
  rows.filter (fun r => decide (r.quantiteTheorique = 0 ∧ 0 < r.quantiteReelle))

/-- One original Sage X3 stock line as extracted upstream: business keys,
    theoretical quantity `QUANTITE`, lot date, and the verbatim
    `original_s_line_raw` given by its semicolon-separated fields. -/
structure OrigLine where
  codeArticle : String
  numeroInventaire : String
  numeroLot : String
  quantite : ℚ
  dateLot : Option Nat
  parts : List String
deriving DecidableEq

/-- One LOTECART adjustment dictionary produced by
    `LotecartProcessor.create_lotecart_adjustments`, with the
    `QUANTITE_REELLE_SAISIE` key `app.py` line 315 adds afterwards kept
    optional. -/
structure LotecartAdj where
  codeArticle : String
  numeroInventaire : String
  numeroLot : String
  typeLot : String
  quantiteOriginale : ℚ
  ajustement : ℚ
  quantiteCorrigee : ℚ
  dateLot : Option Nat
  referenceLine : Option (List String)
  isNewLotecart : Bool
  isExistingUpdate : Bool
  quantiteReelleSaisie : Option ℚ
deriving DecidableEq

/-- `LotecartProcessor.create_lotecart_adjustments` for one candidate
    (`lotecart_processor.py` lines 130-222): first look for an original
    line of the same article and inventory with theoretical quantity
    exactly 0 and update it keeping its own lot number; otherwise take
    the first line of the article (and inventory when given) as the
    reference for a new `LOTECART` line; otherwise produce nothing. -/
def create_lotecart_adjustment (origDf : List OrigLine) (cand : TemplateRow) :
    Option LotecartAdj :=
  match origDf.find? (fun o =>
      decide (o.codeArticle = cand.codeArticle ∧
        o.numeroInventaire = cand.numeroInventaire ∧ o.quantite = 0)) with
  | some line =>
    some { codeArticle := cand.codeArticle
           numeroInventaire := cand.numeroInventaire
           numeroLot := line.numeroLot
           typeLot := "lotecart"
           quantiteOriginale := 0
           ajustement := cand.quantiteReelle
           quantiteCorrigee := cand.quantiteReelle
           dateLot := line.dateLot
           referenceLine := none
           isNewLotecart := false
           isExistingUpdate := true
           quantiteReelleSaisie := none }
  | none =>
    match origDf.find? (fun o =>
        decide (o.codeArticle = cand.codeArticle ∧
          (cand.numeroInventaire = "" ∨
            o.numeroInventaire = cand.numeroInventaire))) with
    | some ref =>
      some { codeArticle := cand.codeArticle
             numeroInventaire := cand.numeroInventaire
             numeroLot := "LOTECART"
             typeLot := "lotecart"
             quantiteOriginale := 0
             ajustement := cand.quantiteReelle
             quantiteCorrigee := cand.quantiteReelle
             dateLot := none
             referenceLine := some ref.parts
             isNewLotecart := true
             isExistingUpdate := false
             quantiteReelleSaisie := none }
    | none => none

/-- All LOTECART adjustments for the detected candidates. -/
def create_lotecart_adjustments (cands : List TemplateRow)
    (origDf : List OrigLine) : List LotecartAdj :=
  cands.filterMap (create_lotecart_adjustment origDf)

/-- `app.py` lines 314-316: before a LOTECART adjustment joins the
    distributed table, `QUANTITE_REELLE_SAISIE` is set to its corrected
    quantity. -/
def withSaisie (a : LotecartAdj) : LotecartAdj :=
  { a with quantiteReelleSaisie := some a.quantiteCorrigee }

/-- One row of the distributed table as `generate_final_file` consumes it
    (`app.py` lines 366-376): the key columns, the corrected quantity,
    the lot type, and the optional `QUANTITE_REELLE_SAISIE`. -/
structure DistRow where
  codeArticle : String
  numeroInventaire : String
  numeroLot : String
  statut : String
  unite : String
  zonePk : String
  emplacement : String
  typeLot : String
  quantiteCorrigee : ℚ
  quantiteReelleSaisie : Option ℚ
deriving DecidableEq

/-- Value stored in `adjustments_dict` (`app.py` lines 372-376). -/
structure AdjData where
  qteTheoAjustee : ℚ
  qteReelleSaisie : ℚ
  typeLot : String
deriving DecidableEq

/-- Dictionary key of `adjustments_dict`: article, inventory and the
    stripped lot number only (`app.py` lines 367-371). -/
def adjKey (r : DistRow) : String × String × String :=
  (r.codeArticle, r.numeroInventaire, strTrim r.numeroLot)

/-- Dictionary value built from a distributed row:
    `row.get("QUANTITE_REELLE_SAISIE", row["QUANTITE_CORRIGEE"])`. -/
def adjDataOf (r : DistRow) : AdjData :=
  { qteTheoAjustee := r.quantiteCorrigee
    qteReelleSaisie := r.quantiteReelleSaisie.getD r.quantiteCorrigee
    typeLot := r.typeLot }

/-- Python dict assignment `d[k] = v` on an association list. -/
def assocSet {κ ν : Type} [DecidableEq κ] (d : List (κ × ν)) (k : κ) (v : ν) :
    List (κ × ν) :=
  match d with
  | [] => [(k, v)]
  | (k', v') :: rest => if k' = k then (k, v) :: rest else (k', v') :: assocSet rest k v

/-- Python dict lookup `d.get(k)` on an association list. -/
def assocGet {κ ν : Type} [DecidableEq κ] (d : List (κ × ν)) (k : κ) : Option ν :=
  match d with
  | [] => none
  | (k', v') :: rest => if k' = k then some v' else assocGet rest k

/-- `adjustments_dict` built row by row over the distributed table
    (`app.py` lines 365-376): a later row with the same key overwrites
    the earlier one. -/
def buildAdjustmentsDict (rows : List DistRow) :
    List ((String × String × String) × AdjData) :=
  rows.foldl (fun d r => assocSet d (adjKey r) (adjDataOf r)) []

/-- Distributed-table row of a LOTECART adjustment after `app.py` line
    315 set its `QUANTITE_REELLE_SAISIE` to the corrected quantity; the
    group columns the adjustment dictionaries never carry are the empty
    string (pandas fills them with `NaN` on concat, and nothing reads
    them afterwards). -/
def distRowOfLotecart (a : LotecartAdj) : DistRow :=
  { codeArticle := a.codeArticle
    numeroInventaire := a.numeroInventaire
    numeroLot := a.numeroLot
    statut := ""
    unite := ""
    zonePk := ""
    emplacement := ""
    typeLot := a.typeLot
    quantiteCorrigee := a.quantiteCorrigee
    quantiteReelleSaisie := some a.quantiteCorrigee }

/-- Replayed fields when the key carries an adjustment (`app.py` lines
    430-451): field 5 keeps the original quantity, field 6 receives the
    corrected quantity with comma decimals, field 7 is `"2"` when the
    corrected quantity is within `zeroEpsilon` of 0 and `"1"` otherwise,
    and field 14 is overwritten with `LOTECART` when the adjustment's lot
    type is the found-stock marker. -/
def regenAdjusted (parts : List String) (quantiteOriginale : String)
    (adj : AdjData) : List String :=
  let p := (parts.set 5 quantiteOriginale).set 6
    (String.mk (to_csv_number adj.qteTheoAjustee))
  let p := p.set 7 (if |adj.qteTheoAjustee| < zeroEpsilon then "2" else "1")
  if strLower adj.typeLot = "lotecart" then p.set 14 "LOTECART" else p

/-- Replayed fields when the key carries no adjustment (`app.py` lines
    452-456): both quantity columns keep the original value, indicator
    `"1"`. -/
def regenPlain (parts : List String) (quantiteOriginale : String) : List String :=
  ((parts.set 5 quantiteOriginale).set 6 quantiteOriginale).set 7 "1"

/-- Location override of `app.py` lines 458-466. -/
def applyEmplUpdate (emplUpdates : List ((String × String) × String))
    (k : String × String) (p : List String) : List String :=
  match assocGet emplUpdates k with
  | some e => if 9 < p.length then p.set 9 e else p
  | none => p

/-- Replay of one original stock line by
    `InventoryProcessor.generate_final_file` (`app.py` lines 409-469):
    lines with fewer than 15 fields are skipped; otherwise the adjustment
    looked up under `(article, inventory, stripped lot)` drives the
    quantity and indicator columns, and a location override for
    `(article, inventory)` may rewrite field 9. -/
def regenerate_line (dict : List ((String × String × String) × AdjData))
    (emplUpdates : List ((String × String) × String)) (o : OrigLine) :
    Option (List String) :=
  if 15 ≤ o.parts.length then
    let quantiteOriginale := o.parts.getD 5 ""
    let key := (o.codeArticle, o.numeroInventaire, strTrim o.numeroLot)
    let p :=
      match assocGet dict key with
      | some adj => regenAdjusted o.parts quantiteOriginale adj
      | none => regenPlain o.parts quantiteOriginale
    some (applyEmplUpdate emplUpdates (o.codeArticle, o.numeroInventaire) p)
  else none

/-- Running maximum of the parseable line-rank fields (index 3) over the
    original lines with at least 15 fields (`app.py` lines 419-424),
    starting from `max_line_number = 0`. -/
def max_line_number (origDf : List OrigLine) : ℤ :=
  origDf.foldl (fun m o =>
    if 15 ≤ o.parts.length then
      match parseIntStr (o.parts.getD 3 "") with
      | some n => max m n
      | none => m
    else m) 0

/-- Guards of `LotecartProcessor.generate_lotecart_lines` for one
    adjustment (`lotecart_processor.py` lines 255-298): only new-line
    adjustments with a usable reference line of at least 15 fields
    produce a line; the returned value is the reference fields. -/
def lotecartRefParts (a : LotecartAdj) : Option (List String) :=
  if a.isNewLotecart then
    match a.referenceLine with
    | none => none
    | some parts => if parts.length < 15 then none else some parts
  else none

/-- Body of `generate_lotecart_lines` (`lotecart_processor.py` lines
    300-324): bump the line number by 1000, then build the new line from
    the reference fields.  `quantite_reelle` falls back to
    `QUANTITE_CORRIGEE` (no adjustment dict carries a `QUANTITE_REELLE`
    key) and `quantite_reelle_saisie` falls back to `quantite_reelle`. -/
def genLotecartAux (adjs : List LotecartAdj) (current : ℤ) : List (List String) :=
  match adjs with
  | [] => []
  | a :: rest =>
    match lotecartRefParts a with
    | none => genLotecartAux rest current
    | some parts =>
      let rank := current + 1000
      let qr := a.quantiteCorrigee
      let qrs := (a.quantiteReelleSaisie.getD qr)
      let line := ((((parts.set 3 (toString rank)).set 5
        (String.mk (format_number_rat qr))).set 6
        (String.mk (format_number_rat qrs))).set 7 "2").set 14 "LOTECART"
      line :: genLotecartAux rest rank

/-- `LotecartProcessor.generate_lotecart_lines`. -/
def generate_lotecart_lines (adjs : List LotecartAdj) (maxLine : ℤ) :
    List (List String) :=
  genLotecartAux adjs maxLine

/-- Line-rank numbers assigned by `generate_lotecart_lines`, in emission
    order (mirror of the `current_line_number` updates). -/
def emittedRanksAux (adjs : List LotecartAdj) (current : ℤ) : List ℤ :=
  match adjs with
  | [] => []
  | a :: rest =>
    match lotecartRefParts a with
    | none => emittedRanksAux rest current
    | some _ => (current + 1000) :: emittedRanksAux rest (current + 1000)

/-- Ranks assigned to the appended found-stock lines. -/
def emittedRanks (adjs : List LotecartAdj) (maxLine : ℤ) : List ℤ :=
  emittedRanksAux adjs maxLine

/-- Column adaptation `app.py` lines 482-493 applies to each generated
    LOTECART line: field 5 becomes `"0"`, field 6 receives the quantity
    previously held by field 5 with its point swapped for a comma. -/
def adapt_lotecart_line (line : List String) : List String :=
  if 15 ≤ line.length then
    let q := line.getD 5 ""
    (line.set 5 "0").set 6 (String.mk (q.toList.map (fun c => if c = '.' then ',' else c)))
  else line

/-- Appended portion of the final file (`app.py` lines 471-495): the
    new-line LOTECART adjustments of the distributed table, generated
    then adapted. -/
def appended_lotecart_lines (adjs : List LotecartAdj) (maxLine : ℤ) :
    List (List String) :=
  (generate_lotecart_lines
    (adjs.filter (fun a => a.isNewLotecart && !a.isExistingUpdate)) maxLine).map
    adapt_lotecart_line

/-- Character class `[A-Z0-9]` of the type-1 lot pattern. -/
def isSiteChar (c : Char) : Bool :=
  (decide ('A' ≤ c) && decide (c ≤ 'Z')) || c.isDigit

/-- Shape test of the type-1 lot pattern
    `^([A-Z0-9]{5})(\d{6})([A-Z0-9]{4})$`
    (`file_processor.py` line 33). -/
def matchesType1 (cs : List Char) : Bool :=
  cs.length = 15 && (cs.take 5).all isSiteChar &&
    ((cs.drop 5).take 6).all Char.isDigit && ((cs.drop 11).all isSiteChar)

/-- Shape test of the type-2 lot pattern `^LOT(\d{6})$`
    (`file_processor.py` line 35). -/
def matchesType2 (cs : List Char) : Bool :=
  cs.length = 9 && decide (cs.take 3 = ['L', 'O', 'T']) && (cs.drop 3).all Char.isDigit

/-- Gregorian leap-year rule used by `datetime`. -/
def isLeapYear (y : ℕ) : Bool :=
  (y % 4 = 0 && y % 100 ≠ 0) || y % 400 = 0

/-- Days of a month, the calendar validity `datetime(year, month, day)`
    enforces (a `ValueError` is raised past it). -/
def daysInMonth (y m : ℕ) : ℕ :=
  if m = 2 then (if isLeapYear y then 29 else 28)
  else if m = 4 ∨ m = 6 ∨ m = 9 ∨ m = 11 then 30
  else 31

/-- `FileProcessorService._extract_date_from_lot` (`file_processor.py`
    lines 493-541) over the allow-list `PRIORITY1_SITE_CODES`: the result
    is the optional extracted date `(year, month, day)` and the lot-type
    tag.  A type-1 shape with a site code outside the allow-list is
    `unknown`; an allowed site with an out-of-range or non-calendar date
    stays `type1` with no date; a type-2 shape extracts no date. -/
def extract_date_from_lot (allow : List String) (lot : String) :
    Option (ℕ × ℕ × ℕ) × String :=
  let cs := trimChars lot.data
  if matchesType1 cs then
    let site := String.mk (cs.take 5)
    if allow.contains site then
      let day := digitsToNat ((cs.drop 5).take 2)
      let month := digitsToNat ((cs.drop 7).take 2)
      let year := digitsToNat ((cs.drop 9).take 2) + 2000
      if 1 ≤ day ∧ day ≤ 31 ∧ 1 ≤ month ∧ month ≤ 12 then
        if day ≤ daysInMonth year month then (some (year, month, day), "type1")
        else (none, "type1")
      else (none, "type1")
    else (none, "unknown")
  else if matchesType2 cs then (none, "type2")
  else (none, "unknown")

theorem distributeAux_length (l : List ℚ) : ∀ (r : ℚ) (i : ℕ),
    (distributeAux l r i).1.length = l.length := by
  induction l with
  | nil => intro r i; simp [distributeAux]
  | cons q rest ih =>
    intro r i
    simp only [distributeAux]
    split_ifs <;> simp [ih]

theorem distributeAux_sum (l : List ℚ) : ∀ (r : ℚ) (i : ℕ),
    ((distributeAux l r i).1.map Prod.fst).sum + (distributeAux l r i).2 = r := by
  induction l with
  | nil => intro r i; simp [distributeAux]
  | cons q rest ih =>
    intro r i
    simp only [distributeAux]
    split_ifs with h1 h2 h3 h4 <;>
      simp only [List.map_cons, List.sum_cons]
    · have := ih r (i + 1); linarith
    · have := ih 0 (i + 1); linarith
    · have := ih r (i + 1); linarith
    · have := ih (r + q) (i + 1); linarith
    · have := ih 0 (i + 1); linarith

theorem distributeAux_zero (l : List ℚ) : ∀ (i : ℕ),
    distributeAux l 0 i = (l.map (fun q => ((0 : ℚ), q)), 0) := by
  induction l with
  | nil => intro i; simp [distributeAux]
  | cons q rest ih => intro i; simp [distributeAux, ih]

theorem distributeAux_nonneg (l : List ℚ) : ∀ (r : ℚ) (i : ℕ),
    (∀ q ∈ l, 0 ≤ q) → ∀ p ∈ (distributeAux l r i).1, 0 ≤ p.2 := by
  induction l with
  | nil => intro r i _ p hp; simp [distributeAux] at hp
  | cons q rest ih =>
    intro r i hl p hp
    have hq : (0 : ℚ) ≤ q := hl q (by simp)
    have hrest : ∀ x ∈ rest, (0 : ℚ) ≤ x := fun x hx => hl x (by simp [hx])
    simp only [distributeAux] at hp
    split_ifs at hp with h1 h2 h3 h4 <;>
      simp only [List.mem_cons] at hp <;>
      rcases hp with hp | hp
    · subst hp; exact hq
    · exact ih r (i + 1) hrest p hp
    · subst hp; simp only; linarith
    · exact ih 0 (i + 1) hrest p hp
    · subst hp; exact hq
    · exact ih r (i + 1) hrest p hp
    · subst hp; simp only; norm_num
    · exact ih (r + q) (i + 1) hrest p hp
    · subst hp
      push_neg at h1 h2
      have hr : r < 0 := lt_of_le_of_ne h2 h1
      have : |r| = -r := abs_of_neg hr
      rw [this] at h4
      push_neg at h4
      simp only
      linarith
    · exact ih 0 (i + 1) hrest p hp

theorem getD_map_pair (l : List ℚ) : ∀ (i : ℕ), i < l.length →
    (l.map (fun q => ((0 : ℚ), q))).getD i (0, 0) = (0, l.getD i 0) := by
  induction l with
  | nil => intro i h; simp at h
  | cons q rest ih =>
    intro i h
    cases i with
    | zero => simp
    | succ j =>
      simp only [List.map_cons, List.getD_cons_succ]
      exact ih j (by simpa using h)

theorem take_sum_nonneg (l : List ℚ) (i : ℕ) (h : ∀ q ∈ l, 0 ≤ q) :
    0 ≤ (l.take i).sum :=
  List.sum_nonneg (fun q hq => h q (List.take_subset i l hq))

theorem distributeAux_drain (l : List ℚ) : ∀ (r : ℚ) (idx : ℕ), r ≤ 0 →
    (∀ q ∈ l, 0 ≤ q) → ∀ i, i < l.length →
    (distributeAux l r idx).1.getD i (0, 0) =
      (if r + (l.take i).sum < 0 then
        (if r + (l.take (i + 1)).sum ≤ 0 then (-(l.getD i 0), 0)
         else (r + (l.take i).sum, l.getD i 0 + (r + (l.take i).sum)))
       else (0, l.getD i 0)) := by
  induction l with
  | nil => intro r idx _ _ i h; simp at h
  | cons q rest ih =>
    intro r idx hr hl i hi
    have hq : (0 : ℚ) ≤ q := hl q (by simp)
    have hrest : ∀ x ∈ rest, (0 : ℚ) ≤ x := fun x hx => hl x (by simp [hx])
    cases i with
    | zero =>
      simp only [List.take_zero, List.sum_nil, add_zero, List.take_succ_cons,
        List.take_zero, List.sum_cons, List.sum_nil, List.getD_cons_zero]
      by_cases h1 : r = 0
      · subst h1
        simp [distributeAux]
      · have hrneg : r < 0 := lt_of_le_of_ne hr h1
        have habs : |r| = -r := abs_of_neg hrneg
        by_cases h2 : q ≤ |r|
        · have hle : r + q ≤ 0 := by rw [habs] at h2; linarith
          simp only [distributeAux, if_neg h1, if_neg (not_lt.2 hr), if_pos h2]
          simp [hrneg, hle]
        · have hgt : ¬ r + q ≤ 0 := by rw [habs] at h2; push_neg at h2 ⊢; linarith
          simp only [distributeAux, if_neg h1, if_neg (not_lt.2 hr), if_neg h2]
          simp [hrneg, hgt]
    | succ j =>
      have hj : j < rest.length := by simpa using hi
      simp only [List.take_succ_cons, List.sum_cons, List.getD_cons_succ]
      by_cases h1 : r = 0
      · subst h1
        have hs : (0 : ℚ) ≤ (rest.take j).sum := take_sum_nonneg rest j hrest
        rw [distributeAux_zero]
        rw [if_neg (by push_neg; linarith)]
        simp only [List.map_cons, List.getD_cons_succ]
        exact getD_map_pair rest j hj
      · have hrneg : r < 0 := lt_of_le_of_ne hr h1
        have habs : |r| = -r := abs_of_neg hrneg
        by_cases h2 : q ≤ |r|
        · have hle : r + q ≤ 0 := by rw [habs] at h2; linarith
          simp only [distributeAux, if_neg h1, if_neg (not_lt.2 hr), if_pos h2]
          have := ih (r + q) (idx + 1) hle hrest j hj
          simp only [List.getD_cons_succ]
          rw [this]
          simp only [← add_assoc]
        · have hgt : 0 < r + q := by rw [habs] at h2; push_neg at h2; linarith
          simp only [distributeAux, if_neg h1, if_neg (not_lt.2 hr), if_neg h2]
          have hs : (0 : ℚ) ≤ (rest.take j).sum := take_sum_nonneg rest j hrest
          have hcond : ¬ r + (q + (rest.take j).sum) < 0 := by push_neg; linarith
          simp only [List.getD_cons_succ]
          rw [distributeAux_zero, if_neg hcond]
          exact getD_map_pair rest j hj

theorem distributeAux_pos (q : ℚ) (rest : List ℚ) (r : ℚ) (hr : 0 < r) :
    distributeAux (q :: rest) r 0 =
      ((r, q + r) :: rest.map (fun x => ((0 : ℚ), x)), 0) := by
  simp only [distributeAux, if_neg hr.ne', if_pos hr, distributeAux_zero]
  simp

/-- C1: in `distribute_discrepancies`, a positive group delta is added
    entirely to the first line of the policy order (its adjustment is the
    whole delta) and every later line is unchanged; a negative delta
    drains the ordered lines front to back, zeroing each line whose
    quantity fits in the remaining shortfall, crediting the remainder to
    the first line that exceeds it, and leaving later lines unchanged;
    concretely under FIFO with lots dated 1 and 2 holding 10 and 5,
    counted 20 corrects them to 15 and 5 and counted 8 corrects them to
    3 and 5. -/
theorem C1_distribution :
    (∀ (origs : List ℚ) (counted q : ℚ) (rest : List ℚ),
      origs = q :: rest → 0 < counted - origs.sum →
      distributeRows origs counted =
        (counted - origs.sum, q + (counted - origs.sum)) ::
          rest.map (fun x => ((0 : ℚ), x))) ∧
    (∀ (origs : List ℚ) (counted : ℚ), counted - origs.sum < 0 →
      (∀ q ∈ origs, 0 ≤ q) → ∀ i, i < origs.length →
      (distributeRows origs counted).getD i (0, 0) =
        (if counted - origs.sum + (origs.take i).sum < 0 then
          (if counted - origs.sum + (origs.take (i + 1)).sum ≤ 0 then
            (-(origs.getD i 0), 0)
           else (counted - origs.sum + (origs.take i).sum,
             origs.getD i 0 + (counted - origs.sum + (origs.take i).sum)))
         else (0, origs.getD i 0))) ∧
    distributeGroup "FIFO" [⟨"LOT1", some 1, 10⟩, ⟨"LOT2", some 2, 5⟩] 20 =
      ([(⟨"LOT1", some 1, 10⟩, 5, 15), (⟨"LOT2", some 2, 5⟩, 0, 5)], 0) ∧
    distributeGroup "FIFO" [⟨"LOT1", some 1, 10⟩, ⟨"LOT2", some 2, 5⟩] 8 =
      ([(⟨"LOT1", some 1, 10⟩, -7, 3), (⟨"LOT2", some 2, 5⟩, 0, 5)], 0) := by
  refine ⟨?_, ?_, ?_, ?_⟩
  · intro origs counted q rest he hpos
    subst he
    unfold distributeRows
    rw [distributeAux_pos q rest _ hpos]
  · intro origs counted hneg hnn i hi
    exact distributeAux_drain origs _ 0 hneg.le hnn i hi
  · norm_num [distributeGroup, distributeAux, sortStrategy, sortByLE, insertLE, fifoLE]
  · norm_num [distributeGroup, distributeAux, sortStrategy, sortByLE, insertLE, fifoLE]

theorem C1_distribution_witness :
    distributeRows [(10 : ℚ), 5] 20 = [(5, 15), (0, 5)] ∧
    (distributeRows [(10 : ℚ), 5] 8).getD 0 (0, 0) = (-7, 3) ∧
    (distributeRows [(10 : ℚ), 5] 8).getD 1 (0, 0) = (0, 5) := by
  refine ⟨?_, ?_, ?_⟩
  · have h := C1_distribution.1 [10, 5] 20 10 [5] rfl (by norm_num)
    norm_num at h
    exact h
  · have h := C1_distribution.2.1 [10, 5] 8 (by norm_num) (by norm_num) 0 (by norm_num)
    norm_num at h
    simpa using h
  · have h := C1_distribution.2.1 [10, 5] 8 (by norm_num) (by norm_num) 1 (by norm_num)
    norm_num at h
    simpa using h

/-- C2: for every group the produced adjustments sum to the group delta
    minus the final residual exactly, so when no residual warning fires
    the sum is within the 0.01 tolerance of the delta; when the warning
    fires the residual exceeds the tolerance and the per-line results are
    still produced for every line (nothing is rolled back). -/
theorem C2_group_delta_invariant (origs : List ℚ) (counted : ℚ) :
    ((distributeRows origs counted).map Prod.fst).sum +
        distributeResidual origs counted = counted - origs.sum ∧
    (residualWarning origs counted = false →
      |((distributeRows origs counted).map Prod.fst).sum -
        (counted - origs.sum)| ≤ 1 / 100) ∧
    (residualWarning origs counted = true →
      1 / 100 < |((distributeRows origs counted).map Prod.fst).sum -
        (counted - origs.sum)| ∧
      (distributeRows origs counted).length = origs.length) ∧
    (distributeRows origs counted).length = origs.length := by
  have hsum := distributeAux_sum origs (counted - origs.sum) 0
  have hlen := distributeAux_length origs (counted - origs.sum) 0
  have heq : ((distributeRows origs counted).map Prod.fst).sum -
      (counted - origs.sum) = -distributeResidual origs counted := by
    unfold distributeRows distributeResidual
    linarith
  refine ⟨?_, ?_, ?_, hlen⟩
  · unfold distributeRows distributeResidual
    exact hsum
  · intro hw
    have hnw : ¬ (1 : ℚ) / 100 < |distributeResidual origs counted| := by
      simpa [residualWarning] using hw
    push_neg at hnw
    rw [heq, abs_neg]
    exact hnw
  · intro hw
    have hgt : (1 : ℚ) / 100 < |distributeResidual origs counted| := by
      simpa [residualWarning] using hw
    rw [heq, abs_neg]
    exact ⟨hgt, hlen⟩

theorem C2_group_delta_invariant_witness :
    |((distributeRows [(10 : ℚ), 5] 8).map Prod.fst).sum -
      (8 - ([(10 : ℚ), 5]).sum)| ≤ 1 / 100 :=
  (C2_group_delta_invariant [10, 5] 8).2.1 (by norm_num [residualWarning,
    distributeResidual, distributeAux])

/-- C5 (amended): whenever every original quantity of a group is
    nonnegative, every corrected quantity produced by the distribution
    loop is nonnegative, for any counted quantity. -/
theorem C5_corrected_quantity_nonneg (origs : List ℚ) (counted : ℚ)
    (h : ∀ q ∈ origs, 0 ≤ q) :
    ∀ p ∈ distributeRows origs counted, 0 ≤ p.2 :=
  distributeAux_nonneg origs (counted - origs.sum) 0 h

theorem C5_counterexample :
    (distributeRows [(10 : ℚ), -5] 0).map Prod.snd = [5, -5] ∧
    ¬ (0 : ℚ) ≤ -5 := by
  constructor
  · norm_num [distributeRows, distributeAux]
  · norm_num

theorem C5_corrected_quantity_nonneg_witness :
    (∀ q ∈ [(10 : ℚ), 5], 0 ≤ q) ∧
    ∀ p ∈ distributeRows [(10 : ℚ), 5] 8, 0 ≤ p.2 :=
  ⟨by norm_num, C5_corrected_quantity_nonneg [10, 5] 8 (by norm_num)⟩

/-- C6: a completed-template row is selected as a found-stock (LOTECART)
    candidate exactly when its theoretical quantity is zero and its
    counted quantity is strictly positive; a row whose counted quantity
    is zero is never a candidate. -/
theorem C6_lotecart_candidate_iff (rows : List TemplateRow) (r : TemplateRow) :
    (r ∈ detect_lotecart_candidates rows ↔
      r ∈ rows ∧ r.quantiteTheorique = 0 ∧ 0 < r.quantiteReelle) ∧
    (r.quantiteReelle = 0 → r ∉ detect_lotecart_candidates rows) := by
  have hiff : r ∈ detect_lotecart_candidates rows ↔
      r ∈ rows ∧ r.quantiteTheorique = 0 ∧ 0 < r.quantiteReelle := by
    simp [detect_lotecart_candidates, List.mem_filter, and_assoc]
  refine ⟨hiff, fun h0 hmem => ?_⟩
  have hlt := (hiff.mp hmem).2.2
  rw [h0] at hlt
  exact lt_irrefl 0 hlt

theorem C6_lotecart_candidate_iff_witness :
    (⟨"ART1", "INV1", 0, 5⟩ : TemplateRow) ∈
      detect_lotecart_candidates [⟨"ART1", "INV1", 0, 5⟩] ∧
    (⟨"ART2", "INV1", 0, 0⟩ : TemplateRow) ∉
      detect_lotecart_candidates [⟨"ART2", "INV1", 0, 0⟩] :=
  ⟨(C6_lotecart_candidate_iff [⟨"ART1", "INV1", 0, 5⟩] ⟨"ART1", "INV1", 0, 5⟩).1.mpr
      ⟨by simp, rfl, by norm_num⟩,
    (C6_lotecart_candidate_iff [⟨"ART2", "INV1", 0, 0⟩] ⟨"ART2", "INV1", 0, 0⟩).2 rfl⟩


theorem matchesType2_not_type1 (cs : List Char) (h : matchesType2 cs = true) :
    matchesType1 cs = false := by
  rcases Bool.eq_false_or_eq_true (matchesType1 cs) with ht | hf
  · exfalso
    have h9 : cs.length = 9 := by
      simp only [matchesType2, Bool.and_eq_true, decide_eq_true_eq] at h
      exact h.1.1
    have h15 : cs.length = 15 := by
      simp only [matchesType1, Bool.and_eq_true, decide_eq_true_eq] at ht
      exact ht.1.1.1
    omega
  · exact hf

/-- C8: lot classification: a type-1-shaped identifier whose site code
    is not in the allow-list is `unknown` with no date; an allowed site
    code with an out-of-range or non-calendar encoded date is `type1`
    with no date; a type-2-shaped identifier is `type2` with no date
    extracted; anything matching neither shape is `unknown`. -/
theorem C8_lot_classification (allow : List String) (lot : String) :
    (matchesType1 (trimChars lot.data) = true →
      allow.contains (String.mk ((trimChars lot.data).take 5)) = false →
      extract_date_from_lot allow lot = (none, "unknown")) ∧
    (matchesType1 (trimChars lot.data) = true →
      allow.contains (String.mk ((trimChars lot.data).take 5)) = true →
      ¬ (1 ≤ digitsToNat (((trimChars lot.data).drop 5).take 2) ∧
          digitsToNat (((trimChars lot.data).drop 5).take 2) ≤ 31 ∧
          1 ≤ digitsToNat (((trimChars lot.data).drop 7).take 2) ∧
          digitsToNat (((trimChars lot.data).drop 7).take 2) ≤ 12 ∧
          digitsToNat (((trimChars lot.data).drop 5).take 2) ≤
            daysInMonth (digitsToNat (((trimChars lot.data).drop 9).take 2) + 2000)
              (digitsToNat (((trimChars lot.data).drop 7).take 2))) →
      extract_date_from_lot allow lot = (none, "type1")) ∧
    (matchesType2 (trimChars lot.data) = true →
      extract_date_from_lot allow lot = (none, "type2")) ∧
    (matchesType1 (trimChars lot.data) = false →
      matchesType2 (trimChars lot.data) = false →
      extract_date_from_lot allow lot = (none, "unknown")) := by
  refine ⟨?_, ?_, ?_, ?_⟩
  · intro h1 hsite
    simp only [extract_date_from_lot]
    rw [if_pos h1, if_neg (by rw [hsite]; simp)]
  · intro h1 hsite hbad
    simp only [extract_date_from_lot]
    rw [if_pos h1, if_pos hsite]
    by_cases hrange : 1 ≤ digitsToNat (((trimChars lot.data).drop 5).take 2) ∧
        digitsToNat (((trimChars lot.data).drop 5).take 2) ≤ 31 ∧
        1 ≤ digitsToNat (((trimChars lot.data).drop 7).take 2) ∧
        digitsToNat (((trimChars lot.data).drop 7).take 2) ≤ 12
    · have hcal : ¬ digitsToNat (((trimChars lot.data).drop 5).take 2) ≤
          daysInMonth (digitsToNat (((trimChars lot.data).drop 9).take 2) + 2000)
            (digitsToNat (((trimChars lot.data).drop 7).take 2)) := by
        intro hc
        exact hbad ⟨hrange.1, hrange.2.1, hrange.2.2.1, hrange.2.2.2, hc⟩
      rw [if_pos hrange, if_neg hcal]
    · rw [if_neg hrange]
  · intro h2
    have h1 := matchesType2_not_type1 _ h2
    simp only [extract_date_from_lot]
    rw [if_neg (by simp [h1]), if_pos h2]
  · intro h1 h2
    simp only [extract_date_from_lot]
    rw [if_neg (by simp [h1]), if_neg (by simp [h2])]

theorem C8_lot_classification_witness :
    extract_date_from_lot ["CPKU1"] "ABCDE010125XYZW" = (none, "unknown") ∧
    extract_date_from_lot ["CPKU1"] "CPKU1300225ABCD" = (none, "type1") ∧
    extract_date_from_lot ["CPKU1"] "CPKU1320125ABCD" = (none, "type1") ∧
    extract_date_from_lot ["CPKU1"] "LOT311224" = (none, "type2") ∧
    extract_date_from_lot ["CPKU1"] "HELLO" = (none, "unknown") :=
  ⟨(C8_lot_classification ["CPKU1"] "ABCDE010125XYZW").1 (by decide) (by decide),
   (C8_lot_classification ["CPKU1"] "CPKU1300225ABCD").2.1 (by decide) (by decide)
     (by decide),
   (C8_lot_classification ["CPKU1"] "CPKU1320125ABCD").2.1 (by decide) (by decide)
     (by decide),
   (C8_lot_classification ["CPKU1"] "LOT311224").2.2.1 (by decide),
   (C8_lot_classification ["CPKU1"] "HELLO").2.2.2 (by decide) (by decide)⟩

theorem format_number_rat_ne_nil (q : ℚ) : format_number_rat q ≠ [] := by
  simp only [format_number_rat]
  split <;> split <;> simp_all

theorem dot_not_mem_to_csv (q : ℚ) : '.' ∉ to_csv_number q := by
  unfold to_csv_number
  intro hmem
  rw [List.mem_map] at hmem
  obtain ⟨c, _, hc⟩ := hmem
  by_cases h : c = '.'
  · rw [if_pos h] at hc
    exact absurd hc (by decide)
  · rw [if_neg h] at hc
    exact h hc

theorem round_helper_a : round ((25 : ℚ) / 2 * 1000000) = 12500000 := by
  rw [round_eq]
  norm_num

theorem fmt_helper_a : format_number_rat ((25 : ℚ) / 2) = ['1', '2', '.', '5'] := by
  simp only [format_number_rat, fmt6, round_helper_a]
  decide

theorem parse_helper_a :
    parse_float_chars ("12.500000".data) = some ((25 : ℚ) / 2) := by
  have ht : trimChars ("12.500000".data) =
      ['1', '2', '.', '5', '0', '0', '0', '0', '0'] := by decide
  have htw : List.takeWhile Char.isDigit
      ['1', '2', '.', '5', '0', '0', '0', '0', '0'] = ['1', '2'] := by decide
  have hdw : List.dropWhile Char.isDigit
      ['1', '2', '.', '5', '0', '0', '0', '0', '0'] =
      ['.', '5', '0', '0', '0', '0', '0'] := by decide
  simp only [parse_float_chars, ht, htw, hdw]
  rw [if_neg (by decide), if_neg (by decide), if_pos (by decide),
    if_neg (by decide)]
  have hd1 : digitsToNat ['1', '2'] = 12 := by decide
  have hd2 : digitsToNat ['5', '0', '0', '0', '0', '0'] = 500000 := by decide
  norm_num [htw, hdw, hd1, hd2]

/-- C9: numeric formatting renders at six-decimal internal precision
    with trailing zeros and the trailing point stripped (12.5 renders as
    `12.5`, then `12,5` in the CSV), zero renders as `"0"`, the result is
    never empty, the CSV form contains no decimal point, and a value
    supplied as text whose normalised form parses is reformatted from the
    parsed value rather than echoed. -/
theorem C9_numeric_formatting :
    format_number_rat ((25 : ℚ) / 2) = ['1', '2', '.', '5'] ∧
    to_csv_number ((25 : ℚ) / 2) = ['1', '2', ',', '5'] ∧
    format_number_rat 0 = ['0'] ∧
    format_number_rat (3 : ℚ) = ['3'] ∧
    (∀ q : ℚ, '.' ∉ to_csv_number q) ∧
    (∀ q : ℚ, format_number_rat q ≠ []) ∧
    (∀ (s : List Char) (q : ℚ),
      parse_float_chars (normalizeNumericInput s) = some q →
      format_number_str s = format_number_rat q) ∧
    format_number_str ("12,500000".data) = ['1', '2', '.', '5'] := by
  have himp : ∀ (s : List Char) (q : ℚ),
      parse_float_chars (normalizeNumericInput s) = some q →
      format_number_str s = format_number_rat q := by
    intro s q h
    simp only [format_number_str, h]
  refine ⟨fmt_helper_a, ?_, ?_, ?_, dot_not_mem_to_csv, format_number_rat_ne_nil,
    himp, ?_⟩
  · simp only [to_csv_number, fmt_helper_a]
    decide
  · have hr : round ((0 : ℚ) * 1000000) = 0 := by norm_num
    simp only [format_number_rat, fmt6, hr]
    decide
  · have hr : round ((3 : ℚ) * 1000000) = 3000000 := by
      rw [round_eq]; norm_num
    simp only [format_number_rat, fmt6, hr]
    decide
  · have hnorm : normalizeNumericInput ("12,500000".data) = "12.500000".data := by
      decide
    have h := himp ("12,500000".data) ((25 : ℚ) / 2)
      (by rw [hnorm]; exact parse_helper_a)
    rw [h, fmt_helper_a]

theorem C9_numeric_formatting_witness :
    format_number_str ("3".data) = format_number_rat (3 : ℚ) := by
  have hnorm : normalizeNumericInput ("3".data) = "3".data := by decide
  have hparse : parse_float_chars ("3".data) = some (3 : ℚ) := by
    have ht : trimChars ("3".data) = ['3'] := by decide
    have htw : List.takeWhile Char.isDigit ['3'] = ['3'] := by decide
    have hdw : List.dropWhile Char.isDigit ['3'] = ([] : List Char) := by decide
    simp only [parse_float_chars, ht, htw, hdw]
    rw [if_neg (by decide), if_pos (by decide), if_neg (by decide),
      if_neg (by decide)]
    have hd : digitsToNat ['3'] = 3 := by decide
    norm_num [htw, hd]
  exact C9_numeric_formatting.2.2.2.2.2.2.1 ("3".data) 3
    (by rw [hnorm]; exact hparse)

theorem getD_set_ne {α : Type} (l : List α) (i j : ℕ) (x d : α) (h : i ≠ j) :
    (l.set i x).getD j d = l.getD j d := by
  rw [List.getD_eq_getElem?_getD, List.getElem?_set_ne h, ← List.getD_eq_getElem?_getD]

theorem getD_set_self {α : Type} (l : List α) (i : ℕ) (x d : α) (h : i < l.length) :
    (l.set i x).getD i d = x := by
  rw [List.getD_eq_getElem?_getD, List.getElem?_set_self]
  · simp
  · exact h

theorem lotecartRefParts_length (a : LotecartAdj) (parts : List String)
    (h : lotecartRefParts a = some parts) : 15 ≤ parts.length := by
  unfold lotecartRefParts at h
  split at h
  · split at h
    · exact absurd h (by simp)
    · split at h
      · exact absurd h (by simp)
      · next hlt =>
        injection h with h'
        subst h'
        omega
  · exact absurd h (by simp)

theorem genLotecartAux_field3 : ∀ (adjs : List LotecartAdj) (c : ℤ),
    (genLotecartAux adjs c).map (fun l => l.getD 3 "") =
      (emittedRanksAux adjs c).map (fun n => toString n) := by
  intro adjs
  induction adjs with
  | nil => intro c; simp [genLotecartAux, emittedRanksAux]
  | cons a rest ih =>
    intro c
    rcases href : lotecartRefParts a with _ | parts
    · simp only [genLotecartAux, emittedRanksAux, href]
      exact ih c
    · have hlen := lotecartRefParts_length a parts href
      simp only [genLotecartAux, emittedRanksAux, href, List.map_cons]
      refine congrArg₂ _ ?_ (ih (c + 1000))
      rw [getD_set_ne _ 14 3 _ _ (by omega), getD_set_ne _ 7 3 _ _ (by omega),
        getD_set_ne _ 6 3 _ _ (by omega), getD_set_ne _ 5 3 _ _ (by omega),
        getD_set_self _ 3 _ _ (by omega)]

theorem emittedRanksAux_getD : ∀ (adjs : List LotecartAdj) (c : ℤ) (i : ℕ),
    i < (emittedRanksAux adjs c).length →
    (emittedRanksAux adjs c).getD i 0 = c + 1000 * ((i : ℤ) + 1) := by
  intro adjs
  induction adjs with
  | nil => intro c i h; simp [emittedRanksAux] at h
  | cons a rest ih =>
    intro c i h
    rcases href : lotecartRefParts a with _ | parts
    · simp only [emittedRanksAux, href] at h ⊢
      exact ih c i h
    · simp only [emittedRanksAux, href] at h ⊢
      cases i with
      | zero => simp
      | succ j =>
        have hj : j < (emittedRanksAux rest (c + 1000)).length := by
          simpa using h
        simp only [List.getD_cons_succ]
        rw [ih (c + 1000) j hj]
        push_cast
        ring

theorem emittedRanksAux_gt : ∀ (adjs : List LotecartAdj) (c : ℤ) (r : ℤ),
    r ∈ emittedRanksAux adjs c → c < r := by
  intro adjs
  induction adjs with
  | nil => intro c r h; simp [emittedRanksAux] at h
  | cons a rest ih =>
    intro c r h
    rcases href : lotecartRefParts a with _ | parts
    · simp only [emittedRanksAux, href] at h
      exact ih c r h
    · simp only [emittedRanksAux, href, List.mem_cons] at h
      rcases h with h | h
      · omega
      · have := ih (c + 1000) r h
        omega

theorem emittedRanksAux_pairwise : ∀ (adjs : List LotecartAdj) (c : ℤ),
    (emittedRanksAux adjs c).Pairwise (· < ·) := by
  intro adjs
  induction adjs with
  | nil => intro c; simp [emittedRanksAux]
  | cons a rest ih =>
    intro c
    rcases href : lotecartRefParts a with _ | parts
    · simp only [emittedRanksAux, href]
      exact ih c
    · simp only [emittedRanksAux, href]
      refine List.Pairwise.cons ?_ (ih (c + 1000))
      intro r hr
      have := emittedRanksAux_gt rest (c + 1000) r hr
      omega

/-- C7: every synthesized found-stock line receives in field 3 the rank
    `max + 1000 * (i + 1)` where `max` is the maximum parseable rank of
    the original data lines and `i` the line's emission index, so all new
    ranks exceed the pre-existing maximum, grow by the fixed step 1000,
    and are strictly increasing. -/
theorem C7_lotecart_line_ranks (origDf : List OrigLine) (adjs : List LotecartAdj) :
    ((generate_lotecart_lines adjs (max_line_number origDf)).map
        (fun l => l.getD 3 "")) =
      (emittedRanks adjs (max_line_number origDf)).map (fun n => toString n) ∧
    (∀ i, i < (emittedRanks adjs (max_line_number origDf)).length →
      (emittedRanks adjs (max_line_number origDf)).getD i 0 =
        max_line_number origDf + 1000 * ((i : ℤ) + 1)) ∧
    (∀ r ∈ emittedRanks adjs (max_line_number origDf),
      max_line_number origDf < r) ∧
    (emittedRanks adjs (max_line_number origDf)).Pairwise (· < ·) :=
  ⟨genLotecartAux_field3 adjs (max_line_number origDf),
   emittedRanksAux_getD adjs (max_line_number origDf),
   emittedRanksAux_gt adjs (max_line_number origDf),
   emittedRanksAux_pairwise adjs (max_line_number origDf)⟩

theorem C7_lotecart_line_ranks_witness :
    (emittedRanks
        [{ codeArticle := "ART1", numeroInventaire := "INV1",
           numeroLot := "LOTECART", typeLot := "lotecart",
           quantiteOriginale := 0, ajustement := 5, quantiteCorrigee := 5,
           dateLot := none,
           referenceLine := some ["S", "SITE", "SES", "100", "ART1", "10", "10",
             "1", "U", "EMP", "Z", "A", "B", "C", "LOT1"],
           isNewLotecart := true, isExistingUpdate := false,
           quantiteReelleSaisie := some 5 },
         { codeArticle := "ART2", numeroInventaire := "INV1",
           numeroLot := "LOTECART", typeLot := "lotecart",
           quantiteOriginale := 0, ajustement := 3, quantiteCorrigee := 3,
           dateLot := none,
           referenceLine := some ["S", "SITE", "SES", "40", "ART2", "7", "7",
             "1", "U", "EMP", "Z", "A", "B", "C", "LOT2"],
           isNewLotecart := true, isExistingUpdate := false,
           quantiteReelleSaisie := some 3 }]
        (max_line_number
          [{ codeArticle := "ART1", numeroInventaire := "INV1",
             numeroLot := "LOT1", quantite := 10, dateLot := some 1,
             parts := ["S", "SITE", "SES", "100", "ART1", "10", "10", "1", "U",
               "EMP", "Z", "A", "B", "C", "LOT1"] }])).getD 0 0 =
      max_line_number
          [{ codeArticle := "ART1", numeroInventaire := "INV1",
             numeroLot := "LOT1", quantite := 10, dateLot := some 1,
             parts := ["S", "SITE", "SES", "100", "ART1", "10", "10", "1", "U",
               "EMP", "Z", "A", "B", "C", "LOT1"] }] + 1000 * ((0 : ℕ) + 1) ∧
    max_line_number
        [{ codeArticle := "ART1", numeroInventaire := "INV1",
           numeroLot := "LOT1", quantite := 10, dateLot := some 1,
           parts := ["S", "SITE", "SES", "100", "ART1", "10", "10", "1", "U",
             "EMP", "Z", "A", "B", "C", "LOT1"] }] < 2100 := by
  have h := C7_lotecart_line_ranks
    [{ codeArticle := "ART1", numeroInventaire := "INV1",
       numeroLot := "LOT1", quantite := 10, dateLot := some 1,
       parts := ["S", "SITE", "SES", "100", "ART1", "10", "10", "1", "U",
         "EMP", "Z", "A", "B", "C", "LOT1"] }]
    [{ codeArticle := "ART1", numeroInventaire := "INV1",
       numeroLot := "LOTECART", typeLot := "lotecart",
       quantiteOriginale := 0, ajustement := 5, quantiteCorrigee := 5,
       dateLot := none,
       referenceLine := some ["S", "SITE", "SES", "100", "ART1", "10", "10",
         "1", "U", "EMP", "Z", "A", "B", "C", "LOT1"],
       isNewLotecart := true, isExistingUpdate := false,
       quantiteReelleSaisie := some 5 },
     { codeArticle := "ART2", numeroInventaire := "INV1",
       numeroLot := "LOTECART", typeLot := "lotecart",
       quantiteOriginale := 0, ajustement := 3, quantiteCorrigee := 3,
       dateLot := none,
       referenceLine := some ["S", "SITE", "SES", "40", "ART2", "7", "7",
         "1", "U", "EMP", "Z", "A", "B", "C", "LOT2"],
       isNewLotecart := true, isExistingUpdate := false,
       quantiteReelleSaisie := some 3 }]
  exact ⟨h.2.1 0 (by decide), h.2.2.1 2100 (by decide)⟩

theorem regenAdjusted_getD6 (parts : List String) (q : String) (a : AdjData)
    (hlen : 15 ≤ parts.length) :
    (regenAdjusted parts q a).getD 6 "" =
      String.mk (to_csv_number a.qteTheoAjustee) := by
  simp only [regenAdjusted]
  split
  · rw [getD_set_ne _ 14 6 _ _ (by omega), getD_set_ne _ 7 6 _ _ (by omega),
      getD_set_self _ 6 _ _ (by simp; omega)]
  · rw [getD_set_ne _ 7 6 _ _ (by omega), getD_set_self _ 6 _ _ (by simp; omega)]

theorem regenAdjusted_getD7 (parts : List String) (q : String) (a : AdjData)
    (hlen : 15 ≤ parts.length) :
    (regenAdjusted parts q a).getD 7 "" =
      (if |a.qteTheoAjustee| < zeroEpsilon then "2" else "1") := by
  simp only [regenAdjusted]
  split
  · rw [getD_set_ne _ 14 7 _ _ (by omega), getD_set_self _ 7 _ _ (by simp; omega)]
  · rw [getD_set_self _ 7 _ _ (by simp; omega)]

theorem regenAdjusted_getD14 (parts : List String) (q : String) (a : AdjData)
    (hlen : 15 ≤ parts.length) (hlot : strLower a.typeLot = "lotecart") :
    (regenAdjusted parts q a).getD 14 "" = "LOTECART" := by
  simp only [regenAdjusted, if_pos hlot]
  rw [getD_set_self _ 14 _ _ (by simp; omega)]

theorem applyEmplUpdate_getD (empl : List ((String × String) × String))
    (k : String × String) (p : List String) (j : ℕ) (d : String) (hj : j ≠ 9) :
    (applyEmplUpdate empl k p).getD j d = p.getD j d := by
  unfold applyEmplUpdate
  split
  · split
    · rw [getD_set_ne _ 9 j _ _ (by omega)]
    · rfl
  · rfl

theorem regenerate_line_some (dict : List ((String × String × String) × AdjData))
    (empl : List ((String × String) × String)) (o : OrigLine) (a : AdjData)
    (hlen : 15 ≤ o.parts.length)
    (ha : assocGet dict (o.codeArticle, o.numeroInventaire, strTrim o.numeroLot) =
      some a) :
    regenerate_line dict empl o =
      some (applyEmplUpdate empl (o.codeArticle, o.numeroInventaire)
        (regenAdjusted o.parts (o.parts.getD 5 "") a)) := by
  simp only [regenerate_line, ha, if_pos hlen]

theorem assocGet_assocSet {κ ν : Type} [DecidableEq κ]
    (d : List (κ × ν)) : ∀ (k k' : κ) (v : ν),
    assocGet (assocSet d k v) k' = if k = k' then some v else assocGet d k' := by
  induction d with
  | nil =>
    intro k k' v
    simp [assocSet, assocGet]
  | cons p rest ih =>
    intro k k' v
    obtain ⟨k0, v0⟩ := p
    simp only [assocSet]
    by_cases h0 : k0 = k
    · subst h0
      rw [if_pos rfl]
      by_cases h1 : k0 = k'
      · subst h1
        simp [assocGet]
      · simp [assocGet, h1]
    · rw [if_neg h0]
      by_cases h1 : k0 = k'
      · subst h1
        have hk : ¬ k = k0 := fun h => h0 h.symm
        simp [assocGet, hk]
      · simp [assocGet, h1, ih]

theorem buildAdjustmentsDict_append (rows : List DistRow) (r : DistRow) :
    buildAdjustmentsDict (rows ++ [r]) =
      assocSet (buildAdjustmentsDict rows) (adjKey r) (adjDataOf r) := by
  simp [buildAdjustmentsDict, List.foldl_append]

theorem buildAdjustmentsDict_lookup :
    ∀ (rows : List DistRow) (k : String × String × String),
    assocGet (buildAdjustmentsDict rows) k =
      ((rows.filter (fun r => adjKey r = k)).getLast?).map adjDataOf := by
  intro rows
  induction rows using List.reverseRecOn with
  | nil => intro k; simp [buildAdjustmentsDict, assocGet]
  | append_singleton rows r ih =>
    intro k
    rw [buildAdjustmentsDict_append, assocGet_assocSet, List.filter_append]
    by_cases h : adjKey r = k
    · rw [if_pos h]
      simp [h]
    · rw [if_neg h, ih k]
      simp [h]

/-- C10: the regenerator's adjustment dictionary is keyed by
    `(article, inventory, stripped lot)` only, so the lookup returns the
    data of the last distributed row bearing that triple (later rows
    overwrite earlier ones that differ only in status, unit, zone or
    location), and every replayed original line bearing the triple
    receives the same corrected-quantity and indicator fields. -/
theorem C10_regeneration_lookup_key (rows : List DistRow)
    (k : String × String × String) :
    (assocGet (buildAdjustmentsDict rows) k =
      ((rows.filter (fun r => adjKey r = k)).getLast?).map adjDataOf) ∧
    (∀ (r1 r2 : DistRow), adjKey r1 = adjKey r2 →
      assocGet (buildAdjustmentsDict [r1, r2]) (adjKey r1) =
        some (adjDataOf r2)) ∧
    (∀ (dict : List ((String × String × String) × AdjData))
        (empl : List ((String × String) × String)) (o1 o2 : OrigLine)
        (a : AdjData),
      15 ≤ o1.parts.length → 15 ≤ o2.parts.length →
      (o1.codeArticle, o1.numeroInventaire, strTrim o1.numeroLot) =
        (o2.codeArticle, o2.numeroInventaire, strTrim o2.numeroLot) →
      assocGet dict
        (o1.codeArticle, o1.numeroInventaire, strTrim o1.numeroLot) = some a →
      ∃ l1 l2, regenerate_line dict empl o1 = some l1 ∧
        regenerate_line dict empl o2 = some l2 ∧
        l1.getD 6 "" = l2.getD 6 "" ∧ l1.getD 7 "" = l2.getD 7 "") := by
  refine ⟨buildAdjustmentsDict_lookup rows k, ?_, ?_⟩
  · intro r1 r2 hk
    rw [buildAdjustmentsDict_lookup]
    have h1 : adjKey r1 = adjKey r1 := rfl
    have h2 : adjKey r2 = adjKey r1 := hk.symm
    simp [List.filter, h1, h2]
  · intro dict empl o1 o2 a hl1 hl2 hkey ha
    have ha2 : assocGet dict
        (o2.codeArticle, o2.numeroInventaire, strTrim o2.numeroLot) = some a := by
      rw [← hkey]
      exact ha
    refine ⟨_, _, regenerate_line_some dict empl o1 a hl1 ha,
      regenerate_line_some dict empl o2 a hl2 ha2, ?_, ?_⟩
    · rw [applyEmplUpdate_getD _ _ _ 6 _ (by omega),
        applyEmplUpdate_getD _ _ _ 6 _ (by omega),
        regenAdjusted_getD6 _ _ _ hl1, regenAdjusted_getD6 _ _ _ hl2]
    · rw [applyEmplUpdate_getD _ _ _ 7 _ (by omega),
        applyEmplUpdate_getD _ _ _ 7 _ (by omega),
        regenAdjusted_getD7 _ _ _ hl1, regenAdjusted_getD7 _ _ _ hl2]

theorem genLotecartAux_field7 : ∀ (adjs : List LotecartAdj) (c : ℤ)
    (l : List String), l ∈ genLotecartAux adjs c → l.getD 7 "" = "2" := by
  intro adjs
  induction adjs with
  | nil => intro c l h; simp [genLotecartAux] at h
  | cons a rest ih =>
    intro c l h
    rcases href : lotecartRefParts a with _ | parts
    · simp only [genLotecartAux, href] at h
      exact ih c l h
    · have hlen := lotecartRefParts_length a parts href
      simp only [genLotecartAux, href, List.mem_cons] at h
      rcases h with h | h
      · subst h
        rw [getD_set_ne _ 14 7 _ _ (by omega),
          getD_set_self _ 7 _ _ (by simp; omega)]
      · exact ih (c + 1000) l h

theorem adapt_lotecart_line_field7 (l : List String) :
    (adapt_lotecart_line l).getD 7 "" = l.getD 7 "" := by
  unfold adapt_lotecart_line
  split
  · rw [getD_set_ne _ 6 7 _ _ (by omega), getD_set_ne _ 5 7 _ _ (by omega)]
  · rfl

/-- C3 (amended): in the regenerated file, a replayed original line that
    carries an adjustment has field 7 equal to `"2"` exactly when its
    corrected quantity is within 1e-9 of zero; an appended new
    found-stock line always has field 7 equal to `"2"`, whatever its
    corrected quantity. -/
theorem C3_count_indicator :
    (∀ (dict : List ((String × String × String) × AdjData))
        (empl : List ((String × String) × String)) (o : OrigLine) (a : AdjData)
        (l : List String),
      15 ≤ o.parts.length →
      assocGet dict
        (o.codeArticle, o.numeroInventaire, strTrim o.numeroLot) = some a →
      regenerate_line dict empl o = some l →
      (l.getD 7 "" = "2" ↔ |a.qteTheoAjustee| < zeroEpsilon)) ∧
    (∀ (adjs : List LotecartAdj) (m : ℤ) (l : List String),
      l ∈ appended_lotecart_lines adjs m → l.getD 7 "" = "2") := by
  constructor
  · intro dict empl o a l hlen ha hl
    rw [regenerate_line_some dict empl o a hlen ha] at hl
    injection hl with hl
    subst hl
    rw [applyEmplUpdate_getD _ _ _ 7 _ (by omega), regenAdjusted_getD7 _ _ _ hlen]
    split
    · next h => simpa using h
    · next h => simp [h]
  · intro adjs m l h
    unfold appended_lotecart_lines at h
    rw [List.mem_map] at h
    obtain ⟨l', hl', rfl⟩ := h
    rw [adapt_lotecart_line_field7]
    exact genLotecartAux_field7 _ m l' hl'

theorem C3_counterexample :
    appended_lotecart_lines
        [{ codeArticle := "ART1", numeroInventaire := "INV1",
           numeroLot := "LOTECART", typeLot := "lotecart",
           quantiteOriginale := 0, ajustement := 5, quantiteCorrigee := 5,
           dateLot := none,
           referenceLine := some ["S", "SITE", "SES", "100", "ART1", "10", "10",
             "1", "U", "EMP", "Z", "A", "B", "C", "LOT1"],
           isNewLotecart := true, isExistingUpdate := false,
           quantiteReelleSaisie := some 5 }] 100 =
      [["S", "SITE", "SES", "1100", "ART1", "0", "5", "2", "U", "EMP", "Z",
        "A", "B", "C", "LOTECART"]] ∧
    ¬ |(5 : ℚ)| < zeroEpsilon := by
  constructor
  · have hfmt : format_number_rat (5 : ℚ) = ['5'] := by
      have hr : round ((5 : ℚ) * 1000000) = 5000000 := by
        rw [round_eq]; norm_num
      simp only [format_number_rat, fmt6, hr]
      decide
    have href : lotecartRefParts
        { codeArticle := "ART1", numeroInventaire := "INV1",
          numeroLot := "LOTECART", typeLot := "lotecart",
          quantiteOriginale := 0, ajustement := 5, quantiteCorrigee := 5,
          dateLot := none,
          referenceLine := some ["S", "SITE", "SES", "100", "ART1", "10", "10",
            "1", "U", "EMP", "Z", "A", "B", "C", "LOT1"],
          isNewLotecart := true, isExistingUpdate := false,
          quantiteReelleSaisie := some (5 : ℚ) } =
        some ["S", "SITE", "SES", "100", "ART1", "10", "10",
          "1", "U", "EMP", "Z", "A", "B", "C", "LOT1"] := by decide
    have hfil : List.filter
        (fun a : LotecartAdj => a.isNewLotecart && !a.isExistingUpdate)
        [{ codeArticle := "ART1", numeroInventaire := "INV1",
           numeroLot := "LOTECART", typeLot := "lotecart",
           quantiteOriginale := 0, ajustement := 5, quantiteCorrigee := 5,
           dateLot := none,
           referenceLine := some ["S", "SITE", "SES", "100", "ART1", "10", "10",
             "1", "U", "EMP", "Z", "A", "B", "C", "LOT1"],
           isNewLotecart := true, isExistingUpdate := false,
           quantiteReelleSaisie := some (5 : ℚ) }] =
        [{ codeArticle := "ART1", numeroInventaire := "INV1",
           numeroLot := "LOTECART", typeLot := "lotecart",
           quantiteOriginale := 0, ajustement := 5, quantiteCorrigee := 5,
           dateLot := none,
           referenceLine := some ["S", "SITE", "SES", "100", "ART1", "10", "10",
             "1", "U", "EMP", "Z", "A", "B", "C", "LOT1"],
           isNewLotecart := true, isExistingUpdate := false,
           quantiteReelleSaisie := some (5 : ℚ) }] := by decide
    simp only [appended_lotecart_lines, hfil, generate_lotecart_lines,
      genLotecartAux, href, hfmt, Option.getD_some]
    decide
  · norm_num [zeroEpsilon]

theorem C3_count_indicator_witness :
    ((applyEmplUpdate [] ("ART1", "INV1")
        (regenAdjusted ["S", "SITE", "SES", "100", "ART1", "10", "10", "1", "U",
          "EMP", "Z", "A", "B", "C", "LOT1"] "10"
          { qteTheoAjustee := 5, qteReelleSaisie := 5, typeLot := "type1" })).getD
        7 "" = "2") ↔
      |(5 : ℚ)| < zeroEpsilon := by
  have hreg := regenerate_line_some
    [(("ART1", "INV1", "LOT1"),
      { qteTheoAjustee := 5, qteReelleSaisie := 5, typeLot := "type1" })] []
    { codeArticle := "ART1", numeroInventaire := "INV1", numeroLot := "LOT1",
      quantite := 10, dateLot := some 1,
      parts := ["S", "SITE", "SES", "100", "ART1", "10", "10", "1", "U",
        "EMP", "Z", "A", "B", "C", "LOT1"] }
    { qteTheoAjustee := 5, qteReelleSaisie := 5, typeLot := "type1" }
    (by decide) (by decide)
  exact C3_count_indicator.1
    [(("ART1", "INV1", "LOT1"),
      { qteTheoAjustee := 5, qteReelleSaisie := 5, typeLot := "type1" })] []
    { codeArticle := "ART1", numeroInventaire := "INV1", numeroLot := "LOT1",
      quantite := 10, dateLot := some 1,
      parts := ["S", "SITE", "SES", "100", "ART1", "10", "10", "1", "U",
        "EMP", "Z", "A", "B", "C", "LOT1"] }
    { qteTheoAjustee := 5, qteReelleSaisie := 5, typeLot := "type1" }
    _ (by decide) (by decide) hreg

theorem assocGet_single (r : DistRow) :
    assocGet (buildAdjustmentsDict [r]) (adjKey r) = some (adjDataOf r) := by
  simp [buildAdjustmentsDict, assocSet, assocGet]

/-- C4 (amended): a found-stock candidate whose article and inventory
    match an original line with theoretical quantity exactly zero yields
    an update adjustment that keeps that line's own lot identifier in its
    record, with corrected quantity and adjustment equal to the counted
    quantity and the update flag set; in the regenerated file, however,
    that line's field 14 is overwritten with the sentinel `LOTECART`
    because the adjustment's lot type is the found-stock marker. -/
theorem C4_existing_zero_line_update (origDf : List OrigLine)
    (cand : TemplateRow) (line : OrigLine)
    (hfind : origDf.find? (fun o => decide (o.codeArticle = cand.codeArticle ∧
        o.numeroInventaire = cand.numeroInventaire ∧ o.quantite = 0)) =
      some line) :
    ∃ adj, create_lotecart_adjustment origDf cand = some adj ∧
      adj.numeroLot = line.numeroLot ∧
      adj.quantiteCorrigee = cand.quantiteReelle ∧
      adj.ajustement = cand.quantiteReelle ∧
      adj.isExistingUpdate = true ∧
      adj.isNewLotecart = false ∧
      adj.typeLot = "lotecart" ∧
      (∀ (empl : List ((String × String) × String)) (o : OrigLine)
          (l : List String), 15 ≤ o.parts.length →
        (o.codeArticle, o.numeroInventaire, strTrim o.numeroLot) =
          adjKey (distRowOfLotecart (withSaisie adj)) →
        regenerate_line
          (buildAdjustmentsDict [distRowOfLotecart (withSaisie adj)]) empl o =
          some l →
        l.getD 14 "" = "LOTECART") := by
  simp only [create_lotecart_adjustment, hfind]
  refine ⟨_, rfl, rfl, rfl, rfl, rfl, rfl, rfl, ?_⟩
  intro empl o l hlen hkey hl
  rw [regenerate_line_some _ empl o _ hlen
    (by rw [hkey]; exact assocGet_single _)] at hl
  injection hl with hl
  subst hl
  rw [applyEmplUpdate_getD _ _ _ 14 _ (by omega)]
  exact regenAdjusted_getD14 _ _ _ hlen (show strLower "lotecart" = "lotecart" by decide)

theorem C4_counterexample :
    (create_lotecart_adjustment
        [{ codeArticle := "ART1", numeroInventaire := "INV1",
           numeroLot := "LOTX", quantite := 0, dateLot := none,
           parts := ["S", "SITE", "SES", "100", "ART1", "0", "0", "1", "U",
             "EMP", "Z", "A", "B", "C", "LOTX"] }]
        { codeArticle := "ART1", numeroInventaire := "INV1",
          quantiteTheorique := 0, quantiteReelle := 5 }).map
      (fun a => a.numeroLot) = some "LOTX" ∧
    (regenerate_line
        (buildAdjustmentsDict
          [{ codeArticle := "ART1", numeroInventaire := "INV1",
             numeroLot := "LOTX", statut := "", unite := "", zonePk := "",
             emplacement := "", typeLot := "lotecart", quantiteCorrigee := 5,
             quantiteReelleSaisie := some 5 }]) []
        { codeArticle := "ART1", numeroInventaire := "INV1",
          numeroLot := "LOTX", quantite := 0, dateLot := none,
          parts := ["S", "SITE", "SES", "100", "ART1", "0", "0", "1", "U",
            "EMP", "Z", "A", "B", "C", "LOTX"] }).map
      (fun l => l.getD 14 "") = some "LOTECART" ∧
    ("LOTECART" : String) ≠ "LOTX" := by
  refine ⟨by decide, by decide, by decide⟩

theorem C4_existing_zero_line_update_witness :
    ∃ adj, create_lotecart_adjustment
        [OrigLine.mk "ART1" "INV1" "LOTX" 0 none
          ["S", "SITE", "SES", "100", "ART1", "0", "0", "1", "U",
           "EMP", "Z", "A", "B", "C", "LOTX"]]
        (TemplateRow.mk "ART1" "INV1" 0 5) = some adj ∧
      adj.numeroLot = (OrigLine.mk "ART1" "INV1" "LOTX" 0 none
        ["S", "SITE", "SES", "100", "ART1", "0", "0", "1", "U",
         "EMP", "Z", "A", "B", "C", "LOTX"]).numeroLot ∧
      adj.quantiteCorrigee = (TemplateRow.mk "ART1" "INV1" 0 5).quantiteReelle ∧
      adj.ajustement = (TemplateRow.mk "ART1" "INV1" 0 5).quantiteReelle ∧
      adj.isExistingUpdate = true ∧
      adj.isNewLotecart = false ∧
      adj.typeLot = "lotecart" ∧
      (∀ (empl : List ((String × String) × String)) (o : OrigLine)
          (l : List String), 15 ≤ o.parts.length →
        (o.codeArticle, o.numeroInventaire, strTrim o.numeroLot) =
          adjKey (distRowOfLotecart (withSaisie adj)) →
        regenerate_line
          (buildAdjustmentsDict [distRowOfLotecart (withSaisie adj)]) empl o =
          some l →
        l.getD 14 "" = "LOTECART") :=
  C4_existing_zero_line_update
    [OrigLine.mk "ART1" "INV1" "LOTX" 0 none
      ["S", "SITE", "SES", "100", "ART1", "0", "0", "1", "U",
       "EMP", "Z", "A", "B", "C", "LOTX"]]
    (TemplateRow.mk "ART1" "INV1" 0 5)
    (OrigLine.mk "ART1" "INV1" "LOTX" 0 none
      ["S", "SITE", "SES", "100", "ART1", "0", "0", "1", "U",
       "EMP", "Z", "A", "B", "C", "LOTX"])
    (by decide)

theorem C10_regeneration_lookup_key_witness :
    assocGet (buildAdjustmentsDict
        [DistRow.mk "ART1" "INV1" "LOT1" "A" "UN" "Z1" "EMP1" "type1" 5 (some 8),
         DistRow.mk "ART1" "INV1" "LOT1" "A" "UN" "Z2" "EMP2" "type1" 7 (some 8)])
      (adjKey
        (DistRow.mk "ART1" "INV1" "LOT1" "A" "UN" "Z1" "EMP1" "type1" 5
          (some 8))) =
      some (adjDataOf
        (DistRow.mk "ART1" "INV1" "LOT1" "A" "UN" "Z2" "EMP2" "type1" 7
          (some 8))) :=
  (C10_regeneration_lookup_key
    [DistRow.mk "ART1" "INV1" "LOT1" "A" "UN" "Z1" "EMP1" "type1" 5 (some 8),
     DistRow.mk "ART1" "INV1" "LOT1" "A" "UN" "Z2" "EMP2" "type1" 7 (some 8)]
    (adjKey
      (DistRow.mk "ART1" "INV1" "LOT1" "A" "UN" "Z1" "EMP1" "type1" 5
        (some 8)))).2.1
    (DistRow.mk "ART1" "INV1" "LOT1" "A" "UN" "Z1" "EMP1" "type1" 5 (some 8))
    (DistRow.mk "ART1" "INV1" "LOT1" "A" "UN" "Z2" "EMP2" "type1" 7 (some 8))
    (by decide)
